import Mathlib

/-!
Verification of the slide fingerprinting / deduplication engine and the
pipeline orchestrator of the meeting-summary backend.

The Python sources under `backend/app` are shallowly embedded below.
Floating-point numbers are modelled as rationals (`ℚ`); external numeric
library routines that are not rational (the square root inside
`np.linalg.norm`, `difflib.SequenceMatcher.ratio`, `hashlib.md5`) are taken
as explicit function parameters, so every definition stays executable and
the statements quantify over the external routine where its value matters.
External effects (the filesystem, AWS Rekognition, the CLIP model) are
modelled by per-frame oracle fields recording what the external call does.
-/

namespace MeetingSummary

/-! ### Data model (`app/models/video.py`) -/

/-- The `SlideAppearance` from `models/video.py`: `{start: float, end: float}`.
The Python field `end` is a Lean keyword, hence the guillemets. -/
structure SlideAppearance where
  start : ℚ
  «end» : ℚ
  deriving DecidableEq, Repr

/-- The `SlideFingerprint` from `models/video.py`. -/
structure SlideFingerprint where
  embedding : List ℚ
  text_hash : String
  ocr_text : String
  timestamp : ℚ
  frame_path : String
  deriving DecidableEq, Repr

instance : Inhabited SlideFingerprint := ⟨⟨[], "", "", 0, ""⟩⟩

/-- The `UniqueSlide` from `models/video.py`. -/
structure UniqueSlide where
  slide_id : String
  image_url : String
  appearances : List SlideAppearance
  ocr_text : String
  discussion_summary : Option String
  deriving DecidableEq, Repr

/-! ### Deduplicator (`app/services/deduplicator.py`)

`SlideDeduplicator` reads two thresholds from settings
(`clip_similarity_threshold`, default 0.95, and
`ocr_text_similarity_threshold`, default 0.8) and uses two external
numeric routines: the square root inside `np.linalg.norm` and
`difflib.SequenceMatcher(...).ratio()`.  Both are carried in the
configuration record. -/
structure DedupConfig where
  /-- models the square root used by `np.linalg.norm` -/
  sqrt : ℚ → ℚ
  /-- models `SequenceMatcher(None, t1, t2).ratio()` on the lowercased texts -/
  ratio : String → String → ℚ
  /-- The `settings.clip_similarity_threshold` (default 0.95) -/
  clip_threshold : ℚ
  /-- The `settings.ocr_text_similarity_threshold` (default 0.8) -/
  text_threshold : ℚ

/-- The value of `np.dot` on two equal-length 1-D vectors: the sum of
pairwise products.  On mismatched lengths `np.dot` raises `ValueError`
(shapes not aligned); `np_dot` below is the fallible embedding carrying
that error path, while this value-level function is only meaningful on
equal-length (or empty) inputs — the shape `are_slides_similar` feeds it,
since every CLIP embedding has the same dimension. -/
def dotProduct (v1 v2 : List ℚ) : ℚ :=
  ((v1.zip v2).map (fun p => p.1 * p.2)).sum

/-- The `np.dot` call of `cosine_similarity` with its error path: a
`ValueError` on 1-D vectors of different lengths, the pairwise product sum
otherwise. -/
def np_dot (v1 v2 : List ℚ) : Except String ℚ :=
  if v1.length ≠ v2.length then .error "ValueError: shapes not aligned"
  else .ok (dotProduct v1 v2)

/-- The sum of squares of a vector; `np.linalg.norm v = sqrt (sumSq v)`. -/
def sumSq (v : List ℚ) : ℚ :=
  (v.map (fun x => x * x)).sum

/-- The `SlideDeduplicator.cosine_similarity` (deduplicator.py lines 18-33)
on the inputs where `np.dot` does not raise (empty or equal-length
vectors, the only shapes `are_slides_similar` produces): returns 0 on an
empty argument (`if not vec1 or not vec2`), returns 0 when either norm is
zero, otherwise the dot product over the product of norms.
`cosine_similarityE` below is the fallible embedding covering the
`ValueError` path as well. -/
def cosine_similarity (cfg : DedupConfig) (vec1 vec2 : List ℚ) : ℚ :=
  if vec1 = [] ∨ vec2 = [] then 0
  else
    let dot_product := dotProduct vec1 vec2
    let norm1 := cfg.sqrt (sumSq vec1)
    let norm2 := cfg.sqrt (sumSq vec2)
    if norm1 = 0 ∨ norm2 = 0 then 0
    else dot_product / (norm1 * norm2)

/-- The `SlideDeduplicator.cosine_similarity` with the `np.dot` error path
made explicit: the empty check comes first, then `np.dot` (which raises on
non-empty vectors of different lengths, before the norms are even
computed), then the zero-norm check, then the quotient. -/
def cosine_similarityE (cfg : DedupConfig) (vec1 vec2 : List ℚ) : Except String ℚ :=
  if vec1 = [] ∨ vec2 = [] then .ok 0
  else
    match np_dot vec1 vec2 with
    | .error e => .error e
    | .ok dot_product =>
      let norm1 := cfg.sqrt (sumSq vec1)
      let norm2 := cfg.sqrt (sumSq vec2)
      if norm1 = 0 ∨ norm2 = 0 then .ok 0
      else .ok (dot_product / (norm1 * norm2))

/-- The `SlideDeduplicator.text_similarity` (deduplicator.py lines 35-40):
0 when either text is empty, else the `SequenceMatcher` ratio of the
lowercased texts. -/
def text_similarity (cfg : DedupConfig) (text1 text2 : String) : ℚ :=
  if text1 = "" ∨ text2 = "" then 0
  else cfg.ratio text1.toLower text2.toLower

/-- The `SlideDeduplicator.are_slides_similar` (deduplicator.py lines 42-78):
true if the non-empty text hashes match exactly, or both embeddings are
present and the cosine similarity reaches `clip_threshold`, or both raw
texts are non-empty and the text similarity reaches `text_threshold`. -/
def are_slides_similar (cfg : DedupConfig) (fingerprint1 fingerprint2 : SlideFingerprint) : Bool :=
  if fingerprint1.text_hash ≠ "" ∧ fingerprint2.text_hash ≠ "" ∧
      fingerprint1.text_hash = fingerprint2.text_hash then
    true
  else if fingerprint1.embedding ≠ [] ∧ fingerprint2.embedding ≠ [] ∧
      cfg.clip_threshold ≤ cosine_similarity cfg fingerprint1.embedding fingerprint2.embedding then
    true
  else if fingerprint1.ocr_text ≠ "" ∧ fingerprint2.ocr_text ≠ "" ∧
      cfg.text_threshold ≤ text_similarity cfg fingerprint1.ocr_text fingerprint2.ocr_text then
    true
  else
    false

/-- The inner `for j` loop of `deduplicate_slides` (lines 110-116): scan the
remaining enumerated fingerprints, skip the ones already in `processed`,
and collect the indices similar to the founding fingerprint `fp1`, adding
each to `processed` as it is assigned.  Returns the collected member
indices together with the updated `processed` set (modelled as a list). -/
def dedupInner (cfg : DedupConfig) (fp1 : SlideFingerprint) :
    List (ℕ × SlideFingerprint) → List ℕ → List ℕ × List ℕ
  | [], processed => ([], processed)
  | (j, fp2) :: rest, processed =>
    if j ∈ processed then dedupInner cfg fp1 rest processed
    else if are_slides_similar cfg fp1 fp2 then
      let (ms, processed') := dedupInner cfg fp1 rest (j :: processed)
      (j :: ms, processed')
    else dedupInner cfg fp1 rest processed

/-- The outer `for i` loop of `deduplicate_slides` (lines 101-118): walk the
enumerated fingerprints; an index not yet processed founds a new group and
the inner loop assigns the later similar indices to it.  Returns the groups
in creation order, each group listing its member indices in assignment
order (founder first), exactly as `slide_groups` records them. -/
def dedupOuter (cfg : DedupConfig) :
    List (ℕ × SlideFingerprint) → List ℕ → List (List ℕ)
  | [], _ => []
  | (i, fp1) :: rest, processed =>
    if i ∈ processed then dedupOuter cfg rest processed
    else
      let (ms, processed') := dedupInner cfg fp1 rest (i :: processed)
      (i :: ms) :: dedupOuter cfg rest processed'

/-- The group structure computed by `deduplicate_slides` (lines 96-118):
`slide_groups` as a list of index groups in `group_id` order. -/
def dedupGroups (cfg : DedupConfig) (fingerprints : List SlideFingerprint) : List (List ℕ) :=
  dedupOuter cfg fingerprints.enum []

/-- The comparison used by `sorted(..., key=lambda x: x.start)` /
`appearances.sort(key=lambda x: x.start)`. -/
def appLE (a b : SlideAppearance) : Bool :=
  a.start ≤ b.start

/-- The fold inside `_merge_appearances` (deduplicator.py lines 167-179):
`last` is the last kept interval (`merged[-1]`); a current interval whose
start is within 1 second of `last.end` is folded into it, extending the
end to the max; otherwise `last` is emitted and the current interval
becomes the new last. -/
def mergeLoop (last : SlideAppearance) : List SlideAppearance → List SlideAppearance
  | [] => [last]
  | current :: rest =>
    if current.start ≤ last.«end» + 1 then
      mergeLoop ⟨last.start, max last.«end» current.«end»⟩ rest
    else
      last :: mergeLoop current rest

/-- The `SlideDeduplicator._merge_appearances` (deduplicator.py lines 160-181):
sort by start (Python's `sorted` is stable, as is `List.mergeSort`), then
fold adjacent-or-overlapping intervals together with a 1-second gap
tolerance. -/
def merge_appearances (appearances : List SlideAppearance) : List SlideAppearance :=
  match appearances.mergeSort appLE with
  | [] => []
  | first :: rest => mergeLoop first rest

/-- The `f"slide_{group_id:03d}"`: decimal digits zero-padded to width 3. -/
def slideId (group_id : ℕ) : String :=
  let s := toString group_id
  "slide_" ++ (if s.length < 3 then String.mk (List.replicate (3 - s.length) '0') ++ s else s)

/-- The `SlideDeduplicator.deduplicate_slides` (deduplicator.py lines 80-158):
group the time-ordered fingerprints with the single-pass greedy clustering,
then turn each group into a `UniqueSlide`: representative = first member,
each member contributes the interval `[timestamp, timestamp + 5]`, the
intervals are sorted and merged, and the slide id is the zero-padded group
ordinal. -/
def deduplicate_slides (cfg : DedupConfig) (fingerprints : List SlideFingerprint) : List UniqueSlide :=
  if fingerprints = [] then []
  else
    (dedupGroups cfg fingerprints).enum.map (fun gi =>
      let indices := gi.2
      let representative := (fingerprints.getD (indices.headD 0) default)
      let appearances := indices.map (fun idx =>
        let fp := fingerprints.getD idx default
        SlideAppearance.mk fp.timestamp (fp.timestamp + 5))
      let sorted := appearances.mergeSort appLE
      let merged := merge_appearances sorted
      UniqueSlide.mk (slideId gi.1) representative.frame_path merged representative.ocr_text none)

/-! ### Fingerprinter (`app/services/slide_fingerprint.py`)

`SlideFingerprinter` holds the OCR circuit-breaker state
(`ocr_disabled`, `ocr_error_count`, `max_ocr_errors = 3`), the optional
Rekognition client and the optional CLIP model.  The external world is
modelled per frame: whether the frame file exists, whether PIL can open it
for the perceptual hash and what 64-bit average-hash value results, what
the Rekognition `detect_text` call does, and what `clip_model.encode`
returns (`none` models an exception inside the call, which the source
catches and converts to `None`). -/

/-- Outcome of one AWS Rekognition `detect_text` call: a successful
response with the joined LINE text, a `ClientError`/`BotoCoreError` of the
credential class (`UnrecognizedClientException` / `InvalidClientTokenId`),
or any other raised exception. -/
inductive OcrOutcome where
  | success (text : String)
  | credentialError
  | otherError
  deriving DecidableEq, Repr

/-- Mutable state of `SlideFingerprinter` (slide_fingerprint.py lines
18-41): the OCR breaker fields plus whether the Rekognition client and the
CLIP model were initialized. -/
structure FpState where
  ocr_disabled : Bool
  ocr_error_count : ℕ
  has_client : Bool
  clip_model : Bool
  deriving DecidableEq, Repr

/-- The `self.max_ocr_errors` (slide_fingerprint.py line 23). -/
def max_ocr_errors : ℕ := 3

/-- One frame handed to the fingerprinter: the `FrameData` fields of
`models/video.py` plus oracle fields describing what the external world
(filesystem, PIL, Rekognition, CLIP) does for this frame. -/
structure FrameData where
  frame_path : String
  timestamp : ℚ
  frame_number : ℕ
  /-- whether `Path(frame_path).exists()` holds -/
  fileExists : Bool
  /-- whether `Image.open(...).convert(...).resize(...)` succeeds inside `_perceptual_hash` -/
  phash_ok : Bool
  /-- the 64-bit average-hash integer computed from the image pixels -/
  phash_val : ℕ
  /-- what the Rekognition `detect_text` call does on this image -/
  ocr_outcome : OcrOutcome
  /-- the `clip_model.encode` result; `none` models a raised exception -/
  embed_result : Option (List ℚ)
  deriving DecidableEq, Repr

/-- The `format(hash_int, '016x')`: lowercase hex digits zero-padded to width
16 (never truncated). -/
def toHex16 (n : ℕ) : String :=
  let ds := Nat.toDigits 16 n
  String.mk (List.replicate (16 - ds.length) '0' ++ ds)

/-- The `SlideFingerprinter._perceptual_hash` (lines 131-158): the 8×8
average hash of the image as a 16-character hex string, or `None` when
loading the image raises. -/
def _perceptual_hash (f : FrameData) : Option String :=
  if f.phash_ok then some (toHex16 f.phash_val) else none

/-- The `SlideFingerprinter._hamming_distance` (lines 160-164): 64 when either
string is empty or the lengths differ, else the number of differing
characters (note: the arguments are hex strings, so this counts differing
hex digits). -/
def _hamming_distance (hash1 hash2 : String) : ℕ :=
  if hash1 = "" ∨ hash2 = "" ∨ hash1.length ≠ hash2.length then 64
  else ((hash1.toList.zip hash2.toList).filter (fun p => p.1 ≠ p.2)).length

/-- Python `\w` on ASCII: letters, digits, underscore. -/
def pyIsWordChar (c : Char) : Bool :=
  c.isAlphanum || c = '_'

/-- The `SlideFingerprinter._normalize_text` (lines 118-124): lowercase, drop
characters that are neither word characters nor whitespace
(`re.sub(r'[^\w\s]', '')`), collapse whitespace runs to single spaces and
strip the ends (`re.sub(r'\s+', ' ')` + `strip`). -/
def _normalize_text (text : String) : String :=
  let lowered := text.toLower
  let kept := String.mk (lowered.toList.filter (fun c => pyIsWordChar c || c.isWhitespace))
  String.intercalate " " ((kept.split (fun c => c.isWhitespace)).filter (fun s => s ≠ ""))

/-- The `SlideFingerprinter._text_hash` (lines 126-129): the md5 hexdigest of
the normalized text.  `hashlib.md5` is external; it is passed in as `md5`
and always returns a 32-character (128-bit) hex digest. -/
def _text_hash (md5 : String → String) (text : String) : String :=
  md5 (_normalize_text text)

/-- The `SlideFingerprinter.extract_ocr_text` (lines 166-224) as a state
transition on the breaker fields, driven by what the Rekognition call
does.  Returns the extracted text and the new state.  When OCR is disabled
or no client exists the call is skipped.  On success the consecutive error
counter resets.  Any failure increments the shared counter; only a
credential-class failure may set `ocr_disabled`, and it does so exactly
when the counter has reached `max_ocr_errors`. -/
def extract_ocr_text (st : FpState) (outcome : OcrOutcome) : String × FpState :=
  if st.ocr_disabled ∨ ¬st.has_client then ("", st)
  else
    match outcome with
    | .success text => (text, { st with ocr_error_count := 0 })
    | .credentialError =>
      let st1 := { st with ocr_error_count := st.ocr_error_count + 1 }
      if max_ocr_errors ≤ st1.ocr_error_count ∧ ¬st1.ocr_disabled then
        ("", { st1 with ocr_disabled := true })
      else ("", st1)
    | .otherError =>
      ("", { st with ocr_error_count := st.ocr_error_count + 1 })

/-- The `SlideFingerprinter.get_clip_embedding` (lines 226-249): `None` when
the model is absent, else the encode result (`none` models the caught
exception path returning `None`). -/
def get_clip_embedding (st : FpState) (f : FrameData) : Option (List ℚ) :=
  if ¬st.clip_model then none else f.embed_result

/-- The `SlideFingerprinter.fingerprint_frame` (lines 251-279): raises
(`Except.error`) when the frame file does not exist; otherwise extracts
OCR text (exceptions are caught inside `extract_ocr_text`), hashes it when
non-empty, obtains the CLIP embedding (exceptions are caught inside
`get_clip_embedding`, and a missing value becomes the empty list) and
builds the fingerprint. -/
def fingerprint_frame (md5 : String → String) (st : FpState) (frame_data : FrameData) :
    Except String SlideFingerprint × FpState :=
  if ¬frame_data.fileExists then
    (.error ("Frame not found: " ++ frame_data.frame_path), st)
  else
    let (ocr_text, st') := extract_ocr_text st frame_data.ocr_outcome
    let text_hash := if ocr_text ≠ "" then _text_hash md5 ocr_text else ""
    let embedding := get_clip_embedding st' frame_data
    let embedding_list := embedding.getD []
    (.ok ⟨embedding_list, text_hash, ocr_text, frame_data.timestamp, frame_data.frame_path⟩, st')

/-- What the loop body of `fingerprint_frames` did with one frame. -/
inductive FrameOutcome where
  | skipped
  | fingerprinted (fp : SlideFingerprint)
  | failed
  deriving DecidableEq, Repr

/-- The `max_recent_hashes` (slide_fingerprint.py line 305). -/
def max_recent_hashes : ℕ := 10

/-- The `hash_similarity_threshold` (slide_fingerprint.py line 306). -/
def hash_similarity_threshold : ℕ := 4

/-- Loop state of `fingerprint_frames`: the fingerprinter object state and
the `recent_hashes` window of (hash, timestamp) pairs. -/
structure PrefilterState where
  fp : FpState
  recent_hashes : List (String × ℚ)
  deriving DecidableEq, Repr

/-- The skip test of the pre-filter (line 320): Hamming distance at most
`hash_similarity_threshold` and timestamps strictly within 5 seconds. -/
def prefilterMatch (frame_hash : String) (t : ℚ) (p : String × ℚ) : Bool :=
  _hamming_distance frame_hash p.1 ≤ hash_similarity_threshold ∧ |t - p.2| < 5

/-- Appending to `recent_hashes` evicts the oldest entry once the window
exceeds `max_recent_hashes` (lines 331-333). -/
def trimWindow (l : List (String × ℚ)) : List (String × ℚ) :=
  if max_recent_hashes < l.length then l.drop 1 else l

/-- One iteration of the `for` loop of `fingerprint_frames` (lines
308-345): with the pre-filter on, compute the perceptual hash; if any
window entry matches, skip the frame; otherwise append the (hash,
timestamp) pair to the window, evicting the oldest entry past
`max_recent_hashes`, and run the full fingerprinting.  A raised exception
is caught and the frame is dropped (`failed`). -/
def processFrame (md5 : String → String) (use_fast_prefilter : Bool)
    (s : PrefilterState) (frame : FrameData) : PrefilterState × FrameOutcome :=
  let fingerprintNow := fun (s' : PrefilterState) =>
    match fingerprint_frame md5 s'.fp frame with
    | (.ok fp, fp') => ({ s' with fp := fp' }, FrameOutcome.fingerprinted fp)
    | (.error _, fp') => ({ s' with fp := fp' }, FrameOutcome.failed)
  if use_fast_prefilter then
    match _perceptual_hash frame with
    | some frame_hash =>
      if s.recent_hashes.any (prefilterMatch frame_hash frame.timestamp) then
        (s, FrameOutcome.skipped)
      else
        let recent2 := trimWindow (s.recent_hashes ++ [(frame_hash, frame.timestamp)])
        fingerprintNow { s with recent_hashes := recent2 }
    | none => fingerprintNow s
  else fingerprintNow s

/-- The full loop of `fingerprint_frames`, recording the per-frame
outcomes in order. -/
def runFrames (md5 : String → String) (use_fast_prefilter : Bool) :
    PrefilterState → List FrameData → PrefilterState × List FrameOutcome
  | s, [] => (s, [])
  | s, f :: rest =>
    let (s1, o) := processFrame md5 use_fast_prefilter s f
    let (s2, os) := runFrames md5 use_fast_prefilter s1 rest
    (s2, o :: os)

/-- The `SlideFingerprinter.fingerprint_frames` (lines 281-350): the produced
fingerprints are the ones of the non-skipped, non-failed frames, in
order.  The window starts empty. -/
def fingerprint_frames (md5 : String → String) (use_fast_prefilter : Bool)
    (st : FpState) (frames : List FrameData) : List SlideFingerprint :=
  ((runFrames md5 use_fast_prefilter ⟨st, []⟩ frames).2).filterMap (fun o =>
    match o with
    | .fingerprinted fp => some fp
    | _ => none)

/-- The outcome list of a `fingerprint_frames` run from loop state `s`. -/
def runOutcomes (md5 : String → String) (use_fast_prefilter : Bool)
    (s : PrefilterState) (frames : List FrameData) : List FrameOutcome :=
  (runFrames md5 use_fast_prefilter s frames).2

/-- Whether an outcome is a produced fingerprint (a fully processed frame). -/
def isFingerprinted : FrameOutcome → Bool
  | .fingerprinted _ => true
  | _ => false

/-- The last `n` elements of a list. -/
def lastN (n : ℕ) (l : List α) : List α :=
  l.drop (l.length - n)

/-- The (hash, timestamp) pairs of the fully processed frames of a run, in
order: the frames whose outcome is `fingerprinted`. -/
def fpPairs (md5 : String → String) (use_fast_prefilter : Bool)
    (s : PrefilterState) (frames : List FrameData) : List (String × ℚ) :=
  ((frames.zip (runOutcomes md5 use_fast_prefilter s frames)).filter
    (fun p => isFingerprinted p.2)).map (fun p => (toHex16 p.1.phash_val, p.1.timestamp))

/-- The FIFO window the claim describes at frame index `i` of a run
started with an empty window: the last `max_recent_hashes` (hash,
timestamp) pairs of the fully processed frames before `i`. -/
def windowAt (md5 : String → String) (st : FpState) (frames : List FrameData) (i : ℕ) :
    List (String × ℚ) :=
  lastN max_recent_hashes (fpPairs md5 true ⟨st, []⟩ (frames.take i))

/-- Folding `extract_ocr_text` over a sequence of Rekognition call
outcomes (the OCR breaker state machine across a job). -/
def runOcrOutcomes (st : FpState) : List OcrOutcome → FpState
  | [] => st
  | o :: rest => runOcrOutcomes (extract_ocr_text st o).2 rest

/-- Specification-side characterization of the breaker: starting with
`c` consecutive failures on the shared counter, does some later
credential-class failure arrive when the counter (counting failures of any
class, reset by successes) has reached `max_ocr_errors`? -/
def tripsBreaker (c : ℕ) : List OcrOutcome → Bool
  | [] => false
  | .success _ :: rest => tripsBreaker 0 rest
  | .otherError :: rest => tripsBreaker (c + 1) rest
  | .credentialError :: rest => (max_ocr_errors ≤ c + 1) || tripsBreaker (c + 1) rest

/-! ### Frame extractor (`app/services/frame_extractor.py`)

Only the final deduplication section of `extract_frames` (lines 295-304)
is modelled; the ffmpeg-driven extraction that builds `all_frames` is an
external media tool. -/

/-- Python `round` to the nearest integer: round-half-even on exact
rationals.  (CPython rounds the binary double; on inputs that are not
half-way ties at 1 decimal this agrees with exact rational rounding, and
the timestamps considered here are not ties.) -/
def pyRoundInt (q : ℚ) : ℤ :=
  if q - ⌊q⌋ = 1/2 then (if ⌊q⌋ % 2 = 0 then ⌊q⌋ else ⌊q⌋ + 1) else round q

/-- The `round(t, 1)`: round to one decimal digit. -/
def pyRound1 (q : ℚ) : ℚ :=
  (pyRoundInt (q * 10) : ℚ) / 10

/-- The loop of the deduplication section with its `seen_timestamps`
accumulator (frame_extractor.py lines 296-302). -/
def dedupFramesAux : List FrameData → List ℚ → List FrameData
  | [], _ => []
  | f :: rest, seen =>
    let rounded_time := pyRound1 f.timestamp
    if rounded_time ∈ seen then dedupFramesAux rest seen
    else f :: dedupFramesAux rest (rounded_time :: seen)

/-- The `# Remove duplicates (same timestamp)` section closing
`extract_frames` (lines 295-304): keep a frame when its timestamp rounded
to 0.1 s has not been seen yet. -/
def removeDuplicateTimestamps (all_frames : List FrameData) : List FrameData :=
  dedupFramesAux all_frames []

/-- Specification-side reading of the same section: keep the first frame
of each rounded bucket, dropping every later frame of that bucket. -/
def dedupSpec : List FrameData → List FrameData
  | [] => []
  | f :: rest =>
    f :: dedupSpec (rest.filter (fun g => pyRound1 g.timestamp ≠ pyRound1 f.timestamp))
termination_by l => l.length
decreasing_by
  simp only [List.length_cons]
  exact Nat.lt_succ_of_le (List.length_filter_le _ _)

/-! ### Pipeline orchestrator (`app/services/video_processor.py`) -/

/-- The `ProcessingStatus` from `models/video.py`. -/
inductive ProcessingStatus where
  | queued
  | processing
  | complete
  | error
  deriving DecidableEq, Repr

/-- The `ProcessingStep` from `models/video.py`; the status is one of the
strings "pending", "in_progress", "complete", "error". -/
structure ProcessingStep where
  name : String
  progress : ℚ
  status : String
  details : Option String
  deriving DecidableEq, Repr

/-- The job record stored in `jobs_db` for one job id.  The dict keys
written by `update_job_status` are modelled as optional fields (absent
until first written; the record created at upload has none of them). -/
structure JobRecord where
  status : ProcessingStatus
  progress : Option ℚ
  current_step : Option String
  steps : Option (List ProcessingStep)
  error : Option String
  deriving DecidableEq, Repr

/-- The `VideoProcessor.update_job_status` (video_processor.py lines 43-63):
no-op when the job id is absent from `jobs_db`; otherwise always writes
`status`, writes `progress` when the argument is not `None`
(`if progress is not None`), writes `current_step` and `error` only when
truthy (`if current_step:` / `if error:`, so `None` and `""` leave the
stored value untouched), and writes `steps` when not `None`. -/
def update_job_status (db : Option JobRecord) (status : ProcessingStatus)
    (progress : Option ℚ) (current_step : Option String)
    (steps : Option (List ProcessingStep)) (error : Option String) : Option JobRecord :=
  match db with
  | none => none
  | some j =>
    some { j with
      status := status
      progress := match progress with
        | some p => some p
        | none => j.progress
      current_step := match current_step with
        | some s => if s = "" then j.current_step else some s
        | none => j.current_step
      steps := match steps with
        | some l => some l
        | none => j.steps
      error := match error with
        | some e => if e = "" then j.error else some e
        | none => j.error }

/-- The `for step in all_steps` loop of `update_step_progress`
(video_processor.py lines 104-113): update the first step whose name
matches and stop.  Its new status is `complete` when progress ≥ 100, else
`in_progress` when progress > 0, else unchanged; details are written only
when truthy. -/
def updateStepInList (steps : List ProcessingStep) (step_name : String)
    (progress : ℚ) (details : Option String) : List ProcessingStep :=
  match steps with
  | [] => []
  | s :: rest =>
    if s.name = step_name then
      let status1 := if 0 < progress then "in_progress" else s.status
      let status2 := if 100 ≤ progress then "complete" else status1
      let details2 := match details with
        | some d => if d = "" then s.details else some d
        | none => s.details
      { s with progress := progress, status := status2, details := details2 } :: rest
    else
      s :: updateStepInList rest step_name progress details

/-- The `update_step_progress` (video_processor.py lines 102-126): update the
named step, recompute the overall progress as the mean of all step
progresses, pick the first step with status "in_progress" as the current
step (or `None`), and push everything into the job record with status
`processing`. -/
def update_step_progress (all_steps : List ProcessingStep) (db : Option JobRecord)
    (step_name : String) (progress : ℚ) (details : Option String) :
    List ProcessingStep × Option JobRecord :=
  let steps' := updateStepInList all_steps step_name progress details
  let total_progress := (steps'.map (fun s => s.progress)).sum / (steps'.length : ℚ)
  let current := (steps'.find? (fun s => s.status = "in_progress")).map (fun s => s.name)
  (steps', update_job_status db .processing (some total_progress) current (some steps') none)

/-- The gap between consecutive kept intervals exceeds the 1-second merge
tolerance: the form an already-merged appearance list satisfies. -/
def appGap (a b : SlideAppearance) : Prop :=
  a.«end» + 1 < b.start

instance : DecidableRel appGap :=
  fun a b => inferInstanceAs (Decidable (a.«end» + 1 < b.start))

/-! ### Concrete instances used by the witness theorems -/

/-- A concrete deduplicator configuration with the default thresholds.
`sqrt := id` is a correct square root on the demo vectors, whose sums of
squares are 0 or 1. -/
def cfgDemo : DedupConfig :=
  ⟨id, fun _ _ => 0, 95/100, 8/10⟩

/-- Founder with text hash "a" and an embedding orthogonal to the later ones. -/
def fpDemo0 : SlideFingerprint := ⟨[1, 0], "a", "", 0, "p0"⟩

/-- Same text hash as `fpDemo0`, embedding parallel to `fpDemo2`. -/
def fpDemo1 : SlideFingerprint := ⟨[0, 1], "a", "", 1, "p1"⟩

/-- Different text hash, embedding parallel to `fpDemo1` only. -/
def fpDemo2 : SlideFingerprint := ⟨[0, 1], "b", "", 2, "p2"⟩

/-- A constant stand-in for `hashlib.md5(...).hexdigest()`: always a
32-character hex digest. -/
def md5Demo : String → String :=
  fun _ => "d41d8cd98f00b204e9800998ecf8427e"

/-- A fingerprinter state with Rekognition client and CLIP model present
and the breaker untripped. -/
def stDemo : FpState := ⟨false, 0, true, true⟩

/-- First pre-filter demo frame: hash value 0 at time 0. -/
def frDemo1 : FrameData := ⟨"f1", 0, 0, true, true, 0, .success "x", some [1]⟩

/-- Second demo frame, 1 s later: hex hash differing from `frDemo1` in 2
digits (Hamming distance 2). -/
def frDemo2 : FrameData := ⟨"f2", 1, 1, true, true, 17, .success "x", some [1]⟩

/-- Third demo frame, 10 s after `frDemo1`, with an identical hash. -/
def frDemo3 : FrameData := ⟨"f3", 10, 2, true, true, 0, .success "x", some [1]⟩

/-- A frame whose file is missing: `fingerprint_frame` raises and the
perceptual hash fails. -/
def frMissing : FrameData := ⟨"bad", 0, 0, false, false, 0, .otherError, none⟩

/-- A readable frame whose Rekognition call raises a non-credential error
and whose embedding succeeds. -/
def frOcrError : FrameData := ⟨"g", 2, 1, true, true, 5, .otherError, some [1]⟩

/-- A readable frame with successful OCR and embedding. -/
def frGood : FrameData := ⟨"p", 1, 0, true, true, 3, .success "Hi", some [2]⟩

/-- Frame at 12.02 s (oracle fields irrelevant to timestamp dedup). -/
def frA : FrameData := ⟨"a", 601/50, 0, true, true, 0, .success "", none⟩

/-- Frame at 12.07 s. -/
def frB : FrameData := ⟨"b", 1207/100, 1, true, true, 0, .success "", none⟩

/-- The `all_steps` list built by `process_video` (video_processor.py
lines 90-100). -/
def pipelineSteps : List ProcessingStep :=
  [⟨"Initializing", 0, "in_progress", none⟩,
   ⟨"Extracting audio", 0, "pending", none⟩,
   ⟨"Detecting scene changes", 0, "pending", none⟩,
   ⟨"Extracting frames", 0, "pending", none⟩,
   ⟨"Fingerprinting slides", 0, "pending", none⟩,
   ⟨"Deduplicating slides", 0, "pending", none⟩,
   ⟨"Transcribing audio", 0, "pending", none⟩,
   ⟨"Generating summary", 0, "pending", none⟩,
   ⟨"Saving results", 0, "pending", none⟩]

/-- The job record as created at upload time: status queued, none of the
progress keys present yet. -/
def jobDemo : JobRecord := ⟨.queued, none, none, none, none⟩

/-- Two already-merged appearances with a gap above the tolerance. -/
def appsDemo : List SlideAppearance := [⟨0, 4⟩, ⟨10, 12⟩]

end MeetingSummary

/-! ## Theorems

Batteries marks the `Rat` field operations `@[irreducible]`; they are
restored to their normal reducibility so that concrete rational
computations can be settled by `decide`. -/

set_option allowUnsafeReducibility true in
attribute [semireducible] Rat.add Rat.mul Rat.inv Rat.sub Rat.neg

namespace MeetingSummary

/-- C2: for every pair of fingerprints with non-empty and equal
`text_hash` fields, `are_slides_similar` returns true, regardless of the
embeddings (the configuration, hence the similarity routines and
thresholds, is arbitrary) and of the raw-text similarity. -/
theorem are_slides_similar_of_equal_text_hash (cfg : DedupConfig)
    (a b : SlideFingerprint) (ha : a.text_hash ≠ "") (hb : b.text_hash ≠ "")
    (hab : a.text_hash = b.text_hash) : are_slides_similar cfg a b = true := by
  unfold are_slides_similar
  rw [if_pos ⟨ha, hb, hab⟩]

/-- Witness for C2: two fingerprints sharing the hash "h", one without an
embedding and with empty text, the other with an embedding and text. -/
theorem are_slides_similar_of_equal_text_hash_witness :
    (("h" : String) ≠ "" ∧ ("h" : String) = "h") ∧
      are_slides_similar cfgDemo ⟨[], "h", "", 0, "a"⟩ ⟨[1, 2], "h", "zz", 3, "b"⟩ = true :=
  ⟨⟨by decide, rfl⟩,
    are_slides_similar_of_equal_text_hash cfgDemo _ _ (by decide) (by decide) (by decide)⟩

/-- C9 (amended): `cosine_similarity` returns exactly 0 and never raises
whenever either vector is missing (empty), or the two vectors have equal
length — the only shape `are_slides_similar` produces, CLIP embeddings
sharing one dimension — and either has zero norm; and 0 never reaches a
positive clip threshold.  On non-empty vectors of different lengths the
source instead raises `ValueError` inside `np.dot`, before the zero-norm
check, so the unconditional claim fails there. -/
theorem cosine_similarityE_degenerate_zero (cfg : DedupConfig) (v1 v2 : List ℚ)
    (h : v1 = [] ∨ v2 = [] ∨ (v1.length = v2.length ∧
      (cfg.sqrt (sumSq v1) = 0 ∨ cfg.sqrt (sumSq v2) = 0))) :
    cosine_similarityE cfg v1 v2 = .ok 0 ∧
      (0 < cfg.clip_threshold →
        ∀ q, cosine_similarityE cfg v1 v2 = .ok q → ¬cfg.clip_threshold ≤ q) := by
  have hz : cosine_similarityE cfg v1 v2 = .ok 0 := by
    unfold cosine_similarityE
    by_cases he : v1 = [] ∨ v2 = []
    · rw [if_pos he]
    · rw [if_neg he]
      obtain ⟨hlen, hnorm⟩ : v1.length = v2.length ∧
          (cfg.sqrt (sumSq v1) = 0 ∨ cfg.sqrt (sumSq v2) = 0) := by tauto
      have hdot : np_dot v1 v2 = .ok (dotProduct v1 v2) := by
        unfold np_dot
        rw [if_neg (by simp [hlen])]
      rw [hdot]
      dsimp only
      rw [if_pos hnorm]
  refine ⟨hz, fun hpos q hq => ?_⟩
  rw [hz] at hq
  injection hq with hq0
  rw [← hq0]
  exact not_le.mpr hpos

/-- Witness for C9 (amended): the zero vector against `[1, 1]` (equal
lengths) has zero norm under the demo square root, so the similarity is 0
and misses the 0.95 threshold. -/
theorem cosine_similarityE_degenerate_zero_witness :
    (([0, 0] : List ℚ) = [] ∨ ([1, 1] : List ℚ) = [] ∨
        (([0, 0] : List ℚ).length = ([1, 1] : List ℚ).length ∧
          (cfgDemo.sqrt (sumSq [0, 0]) = 0 ∨ cfgDemo.sqrt (sumSq [1, 1]) = 0))) ∧
      cosine_similarityE cfgDemo [0, 0] [1, 1] = .ok 0 ∧
      (0 < cfgDemo.clip_threshold →
        ∀ q, cosine_similarityE cfgDemo [0, 0] [1, 1] = .ok q →
          ¬cfgDemo.clip_threshold ≤ q) :=
  ⟨by decide, cosine_similarityE_degenerate_zero cfgDemo [0, 0] [1, 1] (by decide)⟩

/-- Counterexample to C9 as stated: the pair `[0, 0]` vs `[1]` has a
zero-norm member, yet the source does not return 0 — `np.dot` raises
`ValueError` on the mismatched lengths before the zero-norm check is
reached, so `cosine_similarity` is not total on the claim's domain. -/
theorem cosine_similarity_mismatched_raises :
    cfgDemo.sqrt (sumSq [0, 0]) = 0 ∧
      cosine_similarityE cfgDemo [0, 0] [1] = .error "ValueError: shapes not aligned" :=
  ⟨by decide, rfl⟩

/-- C1: membership in a cluster is decided only against the cluster's
founding fingerprint.  For the time-ordered input `[fp0, fp1, fp2]` with
`fp0 ~ fp1`, `fp1 ~ fp2` but not `fp0 ~ fp2`, `fp0` founds the first
cluster, `fp1` is assigned to it, and `fp2` founds its own separate
cluster: the groups are `[[0, 1], [2]]`, so clustering is not transitive. -/
theorem dedup_membership_founder_only (cfg : DedupConfig)
    (fp0 fp1 fp2 : SlideFingerprint)
    (h01 : are_slides_similar cfg fp0 fp1 = true)
    (h12 : are_slides_similar cfg fp1 fp2 = true)
    (h02 : are_slides_similar cfg fp0 fp2 = false) :
    dedupGroups cfg [fp0, fp1, fp2] = [[0, 1], [2]] := by
  have e : ([fp0, fp1, fp2] : List SlideFingerprint).enum = [(0, fp0), (1, fp1), (2, fp2)] := rfl
  rw [dedupGroups, e]
  simp [dedupOuter, dedupInner, h01, h02]

/-- Witness for C1: `fpDemo0 ~ fpDemo1` by exact hash, `fpDemo1 ~ fpDemo2`
by embedding similarity (cosine 1 ≥ 0.95), `fpDemo0 ≁ fpDemo2` (hashes
differ, cosine 0, no text), and the clustering splits them `[[0,1],[2]]`. -/
theorem dedup_membership_founder_only_witness :
    (are_slides_similar cfgDemo fpDemo0 fpDemo1 = true ∧
      are_slides_similar cfgDemo fpDemo1 fpDemo2 = true ∧
      are_slides_similar cfgDemo fpDemo0 fpDemo2 = false) ∧
      dedupGroups cfgDemo [fpDemo0, fpDemo1, fpDemo2] = [[0, 1], [2]] :=
  ⟨⟨by decide, by decide, by decide⟩,
    dedup_membership_founder_only cfgDemo fpDemo0 fpDemo1 fpDemo2
      (by decide) (by decide) (by decide)⟩

/-- Once the breaker is open (or no client exists), `extract_ocr_text` is
a no-op on the state, so the final state of a run equals the state at the
moment the breaker opened. -/
lemma runOcrOutcomes_of_inactive (outs : List OcrOutcome) (st : FpState)
    (h : st.ocr_disabled = true ∨ st.has_client = false) :
    runOcrOutcomes st outs = st := by
  induction outs with
  | nil => rfl
  | cons o rest ih =>
    have he : extract_ocr_text st o = ("", st) := by
      unfold extract_ocr_text
      rcases h with h | h
      · rw [if_pos (Or.inl h)]
      · rw [if_pos (Or.inr (by simp [h]))]
    rw [runOcrOutcomes, he]
    exact ih

/-- Invariant form of the breaker characterization: from any live state
(breaker closed, client present), the final `ocr_disabled` flag equals the
`tripsBreaker` predicate started at the current consecutive-failure
count. -/
lemma runOcrOutcomes_disabled_eq (outs : List OcrOutcome) :
    ∀ st : FpState, st.ocr_disabled = false → st.has_client = true →
      (runOcrOutcomes st outs).ocr_disabled = tripsBreaker st.ocr_error_count outs := by
  induction outs with
  | nil => intro st h1 _; simpa [runOcrOutcomes, tripsBreaker] using h1
  | cons o rest ih =>
    intro st h1 h2
    have hguard : ¬(st.ocr_disabled = true ∨ ¬st.has_client = true) := by
      simp [h1, h2]
    cases o with
    | success t =>
      have he : extract_ocr_text st (.success t) = (t, { st with ocr_error_count := 0 }) := by
        unfold extract_ocr_text
        rw [if_neg hguard]
      rw [runOcrOutcomes, he, tripsBreaker]
      exact ih { st with ocr_error_count := 0 } h1 h2
    | otherError =>
      have he : extract_ocr_text st .otherError =
          ("", { st with ocr_error_count := st.ocr_error_count + 1 }) := by
        unfold extract_ocr_text
        rw [if_neg hguard]
      rw [runOcrOutcomes, he, tripsBreaker]
      exact ih { st with ocr_error_count := st.ocr_error_count + 1 } h1 h2
    | credentialError =>
      by_cases htrip : max_ocr_errors ≤ st.ocr_error_count + 1
      · have he : extract_ocr_text st .credentialError =
            ("", { st with ocr_error_count := st.ocr_error_count + 1, ocr_disabled := true }) := by
          unfold extract_ocr_text
          rw [if_neg hguard]
          simp [htrip, h1]
        rw [runOcrOutcomes, he,
          runOcrOutcomes_of_inactive rest _ (Or.inl rfl)]
        simp [tripsBreaker, htrip]
      · have he : extract_ocr_text st .credentialError =
            ("", { st with ocr_error_count := st.ocr_error_count + 1 }) := by
          unfold extract_ocr_text
          rw [if_neg hguard]
          simp [htrip]
        rw [runOcrOutcomes, he, tripsBreaker]
        have := ih { st with ocr_error_count := st.ocr_error_count + 1 } h1 h2
        simp only [this]
        simp [htrip]

/-- C4 (amended): starting from a fresh fingerprinter with a Rekognition
client, OCR ends up permanently disabled exactly when some
credential-class failure arrives as the `max_ocr_errors`-th (or later)
consecutive failure, where the consecutive-failure counter is shared by
all error classes and reset only by a success.  In particular
non-credential failures alone never set the flag (`tripsBreaker` returns
true only at a `credentialError`), but they do advance the counter. -/
theorem ocr_breaker_characterization (clip : Bool) (outs : List OcrOutcome) :
    (runOcrOutcomes ⟨false, 0, true, clip⟩ outs).ocr_disabled = tripsBreaker 0 outs :=
  runOcrOutcomes_disabled_eq outs ⟨false, 0, true, clip⟩ rfl rfl

/-- Counterexample to C4 as stated: two non-credential failures followed
by a single credential-class failure open the breaker, although no three
consecutive credential-class failures ever happened (the sequence contains
exactly one credential error). -/
theorem ocr_breaker_counterexample :
    (runOcrOutcomes ⟨false, 0, true, true⟩
        [.otherError, .otherError, .credentialError]).ocr_disabled = true ∧
      [OcrOutcome.otherError, .otherError, .credentialError].count .credentialError = 1 := by
  decide

/-- Unfolding equation for `runFrames` on a non-empty frame list. -/
lemma runFrames_cons (md5 : String → String) (pf : Bool) (s : PrefilterState)
    (f : FrameData) (rest : List FrameData) :
    runFrames md5 pf s (f :: rest) =
      ((runFrames md5 pf (processFrame md5 pf s f).1 rest).1,
        (processFrame md5 pf s f).2 :: (runFrames md5 pf (processFrame md5 pf s f).1 rest).2) := by
  rw [runFrames]

/-- C5 (amended): an exception raised inside the OCR sub-call or the
embedding sub-call is caught inside that sub-call, so a frame whose file
exists always contributes a fingerprint — with empty `ocr_text` and
`text_hash` when the Rekognition call did not succeed, and an empty
embedding when the encode call raised.  Only `fingerprint_frame` itself
raising (missing frame file, in which case the perceptual hash fails too)
drops the frame entirely, and processing continues with the remaining
frames unchanged. -/
theorem fingerprint_frame_subcall_errors (md5 : String → String) (pf : Bool)
    (st : FpState) (f : FrameData) (rest : List FrameData) :
    (f.fileExists = true →
      ∃ fp st', fingerprint_frame md5 st f = (.ok fp, st') ∧
        ((∀ t, f.ocr_outcome ≠ .success t) → fp.ocr_text = "" ∧ fp.text_hash = "") ∧
        (f.embed_result = none → fp.embedding = [])) ∧
    (f.fileExists = false → f.phash_ok = false →
      fingerprint_frames md5 pf st (f :: rest) = fingerprint_frames md5 pf st rest) := by
  have hfst : ∀ (st0 : FpState) (out : OcrOutcome), (∀ t, out ≠ .success t) →
      (extract_ocr_text st0 out).1 = "" := by
    intro st0 out hocr
    unfold extract_ocr_text
    split
    · rfl
    · cases out with
      | success t => exact absurd rfl (hocr t)
      | credentialError => dsimp only; split <;> rfl
      | otherError => rfl
  constructor
  · intro hex
    refine ⟨⟨(get_clip_embedding (extract_ocr_text st f.ocr_outcome).2 f).getD [],
      if (extract_ocr_text st f.ocr_outcome).1 ≠ "" then
        _text_hash md5 (extract_ocr_text st f.ocr_outcome).1 else "",
      (extract_ocr_text st f.ocr_outcome).1, f.timestamp, f.frame_path⟩,
      (extract_ocr_text st f.ocr_outcome).2, ?_, fun hocr => ?_, fun hemb => ?_⟩
    · unfold fingerprint_frame
      rw [if_neg (by simp [hex])]
    · have h0 := hfst st f.ocr_outcome hocr
      exact ⟨h0, by simp [h0]⟩
    · simp only [get_clip_embedding, hemb]
      split <;> rfl
  · intro hex hph
    have hfp : fingerprint_frame md5 st f = (.error ("Frame not found: " ++ f.frame_path), st) := by
      unfold fingerprint_frame
      rw [if_pos (by simp [hex])]
    have hstep : ∀ s : PrefilterState, s.fp = st →
        processFrame md5 pf s f = (s, FrameOutcome.failed) := by
      intro s hs
      unfold processFrame
      have hnow : (match fingerprint_frame md5 s.fp f with
          | (.ok fp, fp') => ({ s with fp := fp' }, FrameOutcome.fingerprinted fp)
          | (.error _, fp') => ({ s with fp := fp' }, FrameOutcome.failed)) =
          (s, FrameOutcome.failed) := by
        rw [hs, hfp, ← hs]
      cases pf with
      | false => simpa using hnow
      | true =>
        have hhash : _perceptual_hash f = none := by
          unfold _perceptual_hash
          rw [if_neg (by simp [hph])]
        simpa [hhash] using hnow
    unfold fingerprint_frames
    rw [runFrames_cons, hstep ⟨st, []⟩ rfl]
    simp

/-- Witness for C5 (amended): the frame `frOcrError` (existing file, OCR
raises a non-credential error, embedding succeeds) still yields a
fingerprint with empty text fields, and the missing-file frame
`frMissing` is dropped without affecting the rest of the batch. -/
theorem fingerprint_frame_subcall_errors_witness :
    (∃ fp st', fingerprint_frame md5Demo stDemo frOcrError = (.ok fp, st') ∧
        fp.ocr_text = "" ∧ fp.text_hash = "") ∧
      fingerprint_frames md5Demo true stDemo [frMissing, frGood] =
        fingerprint_frames md5Demo true stDemo [frGood] := by
  constructor
  · obtain ⟨fp, st', heq, hocr, _⟩ :=
      (fingerprint_frame_subcall_errors md5Demo true stDemo frOcrError []).1 rfl
    obtain ⟨h1, h2⟩ := hocr (fun t h => by cases h)
    exact ⟨fp, st', heq, h1, h2⟩
  · exact (fingerprint_frame_subcall_errors md5Demo true stDemo frMissing [frGood]).2 rfl rfl

/-- Counterexample to C5 as stated: a frame whose OCR sub-call raises an
exception (caught inside `extract_ocr_text`) still contributes a
fingerprint — a partial one with only the embedding signal filled in —
rather than being skipped entirely. -/
theorem fingerprint_frame_subcall_errors_counterexample :
    fingerprint_frames md5Demo false ⟨false, 0, true, true⟩
        [⟨"f", 2, 0, true, true, 0, .otherError, some [1]⟩] =
      [⟨[1], "", "", 2, "f"⟩] := by
  decide

/-- C10: every fingerprint produced by `fingerprint_frame` has an empty
`text_hash` exactly when its `ocr_text` is empty: a non-empty OCR text is
hashed to a 32-hex-character (128-bit) md5 digest, which is non-empty, and
an empty OCR text yields the empty hash (so two fingerprints whose OCR
both failed can never satisfy the exact-hash rule of
`are_slides_similar`, which requires both hashes non-empty). -/
theorem fingerprint_text_hash_empty_iff (md5 : String → String)
    (hmd5 : ∀ s, (md5 s).length = 32) (st : FpState) (f : FrameData)
    (fp : SlideFingerprint) (st' : FpState)
    (h : fingerprint_frame md5 st f = (.ok fp, st')) :
    (fp.text_hash = "" ↔ fp.ocr_text = "") := by
  unfold fingerprint_frame at h
  split at h
  · exact absurd (congrArg Prod.fst h) (by simp)
  · have hfp : fp = ⟨(get_clip_embedding (extract_ocr_text st f.ocr_outcome).2 f).getD [],
        if (extract_ocr_text st f.ocr_outcome).1 ≠ "" then
          _text_hash md5 (extract_ocr_text st f.ocr_outcome).1 else "",
        (extract_ocr_text st f.ocr_outcome).1, f.timestamp, f.frame_path⟩ := by
      have := congrArg Prod.fst h
      simpa using this.symm
    subst hfp
    simp only []
    constructor
    · intro hh
      by_contra hocr
      rw [if_pos hocr] at hh
      have hlen := hmd5 (_normalize_text (extract_ocr_text st f.ocr_outcome).1)
      rw [_text_hash] at hh
      rw [hh] at hlen
      simp at hlen
    · intro hocr
      rw [if_neg (by simp [hocr])]

/-- Witness for C10: with a 32-character digest function, the fingerprint
of `frGood` has OCR text "Hi" and a non-empty hash; the equivalence holds
at this concrete run. -/
theorem fingerprint_text_hash_empty_iff_witness :
    (∀ s, (md5Demo s).length = 32) ∧
      (((fingerprint_frame md5Demo stDemo frGood).1.toOption.getD default).text_hash = "" ↔
        ((fingerprint_frame md5Demo stDemo frGood).1.toOption.getD default).ocr_text = "") := by
  refine ⟨fun s => rfl, ?_⟩
  have h : fingerprint_frame md5Demo stDemo frGood =
      (.ok ⟨[2], "d41d8cd98f00b204e9800998ecf8427e", "Hi", 1, "p"⟩, ⟨false, 0, true, true⟩) := rfl
  have := fingerprint_text_hash_empty_iff md5Demo (fun s => rfl) stDemo frGood
    ⟨[2], "d41d8cd98f00b204e9800998ecf8427e", "Hi", 1, "p"⟩ ⟨false, 0, true, true⟩ h
  rw [h]
  exact this

/-- The `seen_timestamps` accumulator only matters through which rounded
values it contains: running the loop with accumulator `seen` equals the
first-of-each-bucket specification on the frames whose bucket is not in
`seen`. -/
lemma dedupFramesAux_eq_spec (frames : List FrameData) :
    ∀ seen : List ℚ, dedupFramesAux frames seen =
      dedupSpec (frames.filter (fun g => pyRound1 g.timestamp ∉ seen)) := by
  induction frames with
  | nil => intro seen; simp [dedupFramesAux, dedupSpec]
  | cons f rest ih =>
    intro seen
    by_cases hmem : pyRound1 f.timestamp ∈ seen
    · simp only [dedupFramesAux]
      rw [if_pos hmem, List.filter_cons_of_neg (by simpa using hmem)]
      exact ih seen
    · simp only [dedupFramesAux]
      rw [if_neg hmem, List.filter_cons_of_pos (by simpa using hmem), dedupSpec]
      rw [List.filter_filter]
      have hpred : ∀ g ∈ rest,
          (decide (pyRound1 g.timestamp ≠ pyRound1 f.timestamp) &&
            decide (pyRound1 g.timestamp ∉ seen)) =
          decide (pyRound1 g.timestamp ∉ pyRound1 f.timestamp :: seen) := by
        intro g _
        simp [List.mem_cons, not_or]
      rw [List.filter_congr hpred]
      rw [ih (pyRound1 f.timestamp :: seen)]

/-- C7 (amended): the closing section of `extract_frames` deduplicates the
combined frame list by timestamp rounded to 0.1 s, keeping the first frame
of each rounded bucket and dropping every later frame whose timestamp
rounds to an already-seen value. -/
theorem frame_dedup_first_per_bucket (frames : List FrameData) :
    removeDuplicateTimestamps frames = dedupSpec frames := by
  have h := dedupFramesAux_eq_spec frames []
  rw [removeDuplicateTimestamps, h]
  congr 1
  simp

/-- Counterexample to C7 as stated: 12.02 s rounds to 12.0 but 12.07 s
rounds to 12.1, so the two frames do not share a 0.1 s bucket and both
survive the deduplication. -/
theorem frame_dedup_counterexample :
    removeDuplicateTimestamps [frA, frB] = [frA, frB] ∧
      pyRound1 ((601 : ℚ)/50) ≠ pyRound1 ((1207 : ℚ)/100) := by
  decide

/-- Every step produced by the update loop carries the name of some step
of the input list (the loop never changes names). -/
lemma updateStepInList_names (l : List ProcessingStep) (n : String) (p : ℚ)
    (d : Option String) : ∀ s ∈ updateStepInList l n p d, ∃ t ∈ l, s.name = t.name := by
  induction l with
  | nil => intro s hs; simp [updateStepInList] at hs
  | cons a rest ih =>
    intro s hs
    simp only [updateStepInList] at hs
    by_cases ha : a.name = n
    · rw [if_pos ha] at hs
      rcases List.mem_cons.mp hs with h | h
      · exact ⟨a, List.mem_cons_self a rest, by rw [h]⟩
      · exact ⟨s, List.mem_cons_of_mem a h, rfl⟩
    · rw [if_neg ha] at hs
      rcases List.mem_cons.mp hs with h | h
      · exact ⟨a, List.mem_cons_self a rest, by rw [h]⟩
      · obtain ⟨t, ht, hn⟩ := ih s h
        exact ⟨t, List.mem_cons_of_mem a ht, hn⟩

/-- C6 (amended): after every callback handled by `update_step_progress`
on an existing job record, the stored overall progress equals the mean of
all stage progresses (unstarted stages count their initial 0), and the
stored `current_step` equals the name of the first stage in progress when
one exists — but when no stage is `in_progress`, the record keeps its
previous `current_step` (it is not reset to null, because
`update_job_status` skips falsy values). -/
theorem job_progress_mean_current_step (all_steps : List ProcessingStep)
    (j : JobRecord) (step_name : String) (progress : ℚ) (details : Option String)
    (hnames : ∀ s ∈ all_steps, s.name ≠ "") :
    ∃ j', (update_step_progress all_steps (some j) step_name progress details).2 = some j' ∧
      j'.progress = some (((updateStepInList all_steps step_name progress details).map
          (fun s => s.progress)).sum /
        ((updateStepInList all_steps step_name progress details).length : ℚ)) ∧
      (∀ s, (updateStepInList all_steps step_name progress details).find?
          (fun t => t.status = "in_progress") = some s → j'.current_step = some s.name) ∧
      ((updateStepInList all_steps step_name progress details).find?
          (fun t => t.status = "in_progress") = none → j'.current_step = j.current_step) := by
  unfold update_step_progress update_job_status
  dsimp only
  cases hfind : (updateStepInList all_steps step_name progress details).find?
      (fun t => t.status = "in_progress") with
  | none =>
    exact ⟨_, rfl, rfl, fun s hs => Option.noConfusion hs, fun _ => rfl⟩
  | some s0 =>
    have hs0 : s0.name ≠ "" := by
      obtain ⟨t, ht, hn⟩ := updateStepInList_names all_steps step_name progress details s0
        (List.mem_of_find?_eq_some hfind)
      rw [hn]
      exact hnames t ht
    refine ⟨_, rfl, rfl, fun s hs => ?_, fun hn => Option.noConfusion hn⟩
    cases hs
    exact if_neg hs0

/-- Witness for C6 (amended): the pipeline's step list with the
"Extracting frames" stage reported at 50 %. -/
theorem job_progress_mean_current_step_witness :
    (∀ s ∈ pipelineSteps, s.name ≠ "") ∧
      (∃ j', (update_step_progress pipelineSteps (some jobDemo)
          "Extracting frames" 50 none).2 = some j' ∧
        j'.progress = some (((updateStepInList pipelineSteps "Extracting frames" 50 none).map
            (fun s => s.progress)).sum /
          ((updateStepInList pipelineSteps "Extracting frames" 50 none).length : ℚ)) ∧
        (∀ s, (updateStepInList pipelineSteps "Extracting frames" 50 none).find?
            (fun t => t.status = "in_progress") = some s → j'.current_step = some s.name) ∧
        ((updateStepInList pipelineSteps "Extracting frames" 50 none).find?
            (fun t => t.status = "in_progress") = none → j'.current_step = jobDemo.current_step)) :=
  ⟨by decide,
    job_progress_mean_current_step pipelineSteps jobDemo "Extracting frames" 50 none (by decide)⟩

/-- Counterexample to C6 as stated: run the real callback sequence
"Initializing" → 100, "Extracting frames" → 50, "Extracting frames" → 100
on a fresh record.  After the last callback no stage is `in_progress`,
yet the record's `current_step` still reads "Extracting frames" instead of
null. -/
theorem job_current_step_counterexample :
    (let r1 := update_step_progress pipelineSteps (some jobDemo) "Initializing" 100 none
     let r2 := update_step_progress r1.1 r1.2 "Extracting frames" 50 none
     let r3 := update_step_progress r2.1 r2.2 "Extracting frames" 100 none
     r3.1.find? (fun s => s.status = "in_progress") = none ∧
       r3.2.map (fun j => j.current_step) = some (some "Extracting frames")) := by
  decide

/-- The `appLE` is transitive (needed for `mergeSort` correctness). -/
lemma appLE_trans : ∀ a b c : SlideAppearance, appLE a b → appLE b c → appLE a c := by
  intro a b c hab hbc
  simp only [appLE, decide_eq_true_eq] at *
  exact le_trans hab hbc

/-- The `appLE` is total (needed for `mergeSort` correctness). -/
lemma appLE_total : ∀ a b : SlideAppearance, appLE a b || appLE b a := by
  intro a b
  simp only [appLE, Bool.or_eq_true, decide_eq_true_eq]
  exact le_total a.start b.start

/-- Boolean and propositional sortedness by start coincide. -/
lemma pairwise_appLE_iff (l : List SlideAppearance) :
    List.Pairwise (fun a b => appLE a b = true) l ↔
      List.Pairwise (fun a b => a.start ≤ b.start) l := by
  constructor
  · exact fun h => h.imp (by simp [appLE])
  · exact fun h => h.imp (by simp [appLE])

/-- The head of the merge fold keeps the start of the running interval. -/
lemma mergeLoop_head : ∀ (rest : List SlideAppearance) (last : SlideAppearance),
    ∃ e tl, mergeLoop last rest = SlideAppearance.mk last.start e :: tl := by
  intro rest
  induction rest with
  | nil => intro last; exact ⟨last.«end», [], by cases last; rfl⟩
  | cons cur r ih =>
    intro last
    simp only [mergeLoop]
    by_cases hc : cur.start ≤ last.«end» + 1
    · rw [if_pos hc]
      obtain ⟨e, tl, h⟩ := ih ⟨last.start, max last.«end» cur.«end»⟩
      exact ⟨e, tl, h⟩
    · rw [if_neg hc]
      exact ⟨last.«end», mergeLoop cur r, by cases last; rfl⟩

/-- Every interval produced by the merge fold starts where some input
interval starts. -/
lemma mergeLoop_mem_start : ∀ (rest : List SlideAppearance) (last x : SlideAppearance),
    x ∈ mergeLoop last rest → ∃ y ∈ last :: rest, x.start = y.start := by
  intro rest
  induction rest with
  | nil =>
    intro last x hx
    simp only [mergeLoop, List.mem_singleton] at hx
    exact ⟨last, List.mem_cons_self last [], by rw [hx]⟩
  | cons cur r ih =>
    intro last x hx
    simp only [mergeLoop] at hx
    by_cases hc : cur.start ≤ last.«end» + 1
    · rw [if_pos hc] at hx
      obtain ⟨y, hy, hs⟩ := ih ⟨last.start, max last.«end» cur.«end»⟩ x hx
      rcases List.mem_cons.mp hy with h | h
      · rw [h] at hs
        exact ⟨last, List.mem_cons_self last _, hs⟩
      · exact ⟨y, List.mem_cons_of_mem _ (List.mem_cons_of_mem _ h), hs⟩
    · rw [if_neg hc] at hx
      rcases List.mem_cons.mp hx with h | h
      · exact ⟨last, List.mem_cons_self last _, by rw [h]⟩
      · obtain ⟨y, hy, hs⟩ := ih cur x h
        exact ⟨y, List.mem_cons_of_mem _ hy, hs⟩

/-- The merge fold of a start-sorted list is start-sorted. -/
lemma mergeLoop_sorted : ∀ (rest : List SlideAppearance) (last : SlideAppearance),
    List.Pairwise (fun a b => a.start ≤ b.start) (last :: rest) →
    List.Pairwise (fun a b => a.start ≤ b.start) (mergeLoop last rest) := by
  intro rest
  induction rest with
  | nil => intro last _; simp [mergeLoop]
  | cons cur r ih =>
    intro last hp
    obtain ⟨hhead, htail⟩ := List.pairwise_cons.mp hp
    simp only [mergeLoop]
    by_cases hc : cur.start ≤ last.«end» + 1
    · rw [if_pos hc]
      apply ih ⟨last.start, max last.«end» cur.«end»⟩
      exact List.pairwise_cons.mpr
        ⟨fun y hy => hhead y (List.mem_cons_of_mem _ hy), (List.pairwise_cons.mp htail).2⟩
    · rw [if_neg hc]
      apply List.pairwise_cons.mpr
      refine ⟨fun x hx => ?_, ih cur htail⟩
      obtain ⟨y, hy, hs⟩ := mergeLoop_mem_start r cur x hx
      rw [hs]
      exact hhead y hy

/-- The merge fold of a start-sorted list leaves gaps above the
1-second tolerance between consecutive output intervals. -/
lemma mergeLoop_gap_chain : ∀ (rest : List SlideAppearance) (last : SlideAppearance),
    List.Pairwise (fun a b => a.start ≤ b.start) (last :: rest) →
    List.Chain' appGap (mergeLoop last rest) := by
  intro rest
  induction rest with
  | nil => intro last _; simp [mergeLoop]
  | cons cur r ih =>
    intro last hp
    obtain ⟨hhead, htail⟩ := List.pairwise_cons.mp hp
    simp only [mergeLoop]
    by_cases hc : cur.start ≤ last.«end» + 1
    · rw [if_pos hc]
      apply ih ⟨last.start, max last.«end» cur.«end»⟩
      exact List.pairwise_cons.mpr
        ⟨fun y hy => hhead y (List.mem_cons_of_mem _ hy), (List.pairwise_cons.mp htail).2⟩
    · rw [if_neg hc]
      obtain ⟨e, tl, heq⟩ := mergeLoop_head r cur
      rw [heq]
      apply List.chain'_cons.mpr
      refine ⟨not_le.mp hc, ?_⟩
      rw [← heq]
      exact ih cur htail

/-- A list whose consecutive gaps all exceed the tolerance is a fixed
point of the merge fold. -/
lemma mergeLoop_of_gap : ∀ (l : List SlideAppearance) (a : SlideAppearance),
    List.Chain' appGap (a :: l) → mergeLoop a l = a :: l := by
  intro l
  induction l with
  | nil => intro a _; rfl
  | cons b r ih =>
    intro a hc
    obtain ⟨hab, hbr⟩ := List.chain'_cons.mp hc
    simp only [mergeLoop]
    rw [if_neg (not_le.mpr hab)]
    rw [ih b hbr]

/-- C8: `_merge_appearances` is idempotent — merging twice equals merging
once for every input — and any appearance list that is already sorted by
start with every consecutive gap above the 1-second tolerance is returned
unchanged. -/
theorem merge_appearances_idempotent (xs : List SlideAppearance) :
    merge_appearances (merge_appearances xs) = merge_appearances xs ∧
      (List.Pairwise (fun a b => a.start ≤ b.start) xs → List.Chain' appGap xs →
        merge_appearances xs = xs) := by
  have hfix : ∀ l : List SlideAppearance,
      List.Pairwise (fun a b => a.start ≤ b.start) l → List.Chain' appGap l →
      merge_appearances l = l := by
    intro l hs hg
    unfold merge_appearances
    rw [List.mergeSort_of_sorted ((pairwise_appLE_iff l).mpr hs)]
    cases l with
    | nil => rfl
    | cons a r => exact mergeLoop_of_gap r a hg
  refine ⟨?_, fun hs hg => hfix xs hs hg⟩
  cases hsort : xs.mergeSort appLE with
  | nil =>
    have hxs : merge_appearances xs = [] := by
      unfold merge_appearances
      rw [hsort]
    rw [hxs]
    unfold merge_appearances
    rw [List.mergeSort_nil]
  | cons a r =>
    have hout : merge_appearances xs = mergeLoop a r := by
      unfold merge_appearances
      rw [hsort]
    have hsorted : List.Pairwise (fun x y => x.start ≤ y.start) (a :: r) := by
      have h := List.sorted_mergeSort appLE_trans appLE_total xs
      rw [hsort] at h
      exact (pairwise_appLE_iff _).mp h
    rw [hout]
    exact hfix (mergeLoop a r) (mergeLoop_sorted r a hsorted) (mergeLoop_gap_chain r a hsorted)

/-- Witness for C8: the already-merged list `[(0,4), (10,12)]` is sorted,
has its gap above the tolerance, and is returned unchanged. -/
theorem merge_appearances_idempotent_witness :
    (List.Pairwise (fun a b => a.start ≤ b.start) appsDemo ∧
        List.Chain' appGap appsDemo) ∧
      merge_appearances appsDemo = appsDemo := by
  have hs : List.Pairwise (fun a b => a.start ≤ b.start) appsDemo := by decide
  have hg : List.Chain' appGap appsDemo := by
    simp only [appsDemo, List.chain'_cons, List.chain'_singleton, and_true]
    decide
  exact ⟨⟨hs, hg⟩, (merge_appearances_idempotent appsDemo).2 hs hg⟩

/-- Appending one pair to a saturated-or-not window and evicting past
`max_recent_hashes` keeps exactly the last `max_recent_hashes` pairs. -/
lemma trimWindow_lastN (l : List (String × ℚ)) (x : String × ℚ) :
    trimWindow (lastN max_recent_hashes l ++ [x]) = lastN max_recent_hashes (l ++ [x]) := by
  unfold trimWindow lastN max_recent_hashes
  by_cases h : l.length < 10
  · have h0 : l.length - 10 = 0 := by omega
    have h1 : (l ++ [x]).length - 10 = 0 := by
      simp only [List.length_append, List.length_singleton]
      omega
    rw [h0, h1, List.drop_zero, List.drop_zero]
    rw [if_neg (by simp only [List.length_append, List.length_singleton, h0, List.drop_zero]; omega)]
  · have hlen : (l.drop (l.length - 10)).length = 10 := by
      rw [List.length_drop]
      omega
    rw [if_pos (by simp only [List.length_append, List.length_singleton, hlen]; omega)]
    rw [List.drop_append_eq_append_drop]
    rw [List.drop_drop]
    rw [List.drop_append_eq_append_drop]
    have e1 : 1 - (l.drop (l.length - 10)).length = 0 := by
      rw [hlen]
    have e2 : (l ++ [x]).length - 10 - l.length = 0 := by
      simp only [List.length_append, List.length_singleton]
      omega
    have e3 : l.length - 10 + 1 = (l ++ [x]).length - 10 := by
      simp only [List.length_append, List.length_singleton]
      omega
    rw [e1, e2]
    simp only [List.drop_zero]
    rw [e3]

/-- A frame whose file exists is fingerprinted successfully. -/
lemma fingerprint_frame_ok (md5 : String → String) (st : FpState) (f : FrameData)
    (hex : f.fileExists = true) :
    ∃ fp st', fingerprint_frame md5 st f = (.ok fp, st') := by
  unfold fingerprint_frame
  rw [if_neg (by simp [hex])]
  exact ⟨_, _, rfl⟩

/-- Case analysis of one pre-filter loop iteration on a frame with a
computable hash and an existing file: either some window entry matches and
the frame is skipped with the state unchanged, or no entry matches and the
frame is fingerprinted with its pair appended to the trimmed window. -/
lemma processFrame_spec (md5 : String → String) (s : PrefilterState) (f : FrameData)
    (hp : f.phash_ok = true) (hex : f.fileExists = true) :
    (s.recent_hashes.any (prefilterMatch (toHex16 f.phash_val) f.timestamp) = true ∧
      processFrame md5 true s f = (s, .skipped)) ∨
    (s.recent_hashes.any (prefilterMatch (toHex16 f.phash_val) f.timestamp) = false ∧
      ∃ fp fps', processFrame md5 true s f =
        (⟨fps', trimWindow (s.recent_hashes ++ [(toHex16 f.phash_val, f.timestamp)])⟩,
          .fingerprinted fp)) := by
  have hhash : _perceptual_hash f = some (toHex16 f.phash_val) := by
    unfold _perceptual_hash
    rw [if_pos hp]
  by_cases ha : s.recent_hashes.any (prefilterMatch (toHex16 f.phash_val) f.timestamp) = true
  · left
    refine ⟨ha, ?_⟩
    simp [processFrame, hhash, ha]
  · right
    refine ⟨by simpa using ha, ?_⟩
    obtain ⟨fp, st', hfp⟩ := fingerprint_frame_ok md5 s.fp f hex
    refine ⟨fp, st', ?_⟩
    simp [processFrame, hhash, ha, hfp]

/-- Unfolding equation for the outcome list on a non-empty frame list. -/
lemma runOutcomes_cons (md5 : String → String) (pf : Bool) (s : PrefilterState)
    (f : FrameData) (rest : List FrameData) :
    runOutcomes md5 pf s (f :: rest) =
      (processFrame md5 pf s f).2 :: runOutcomes md5 pf (processFrame md5 pf s f).1 rest := by
  unfold runOutcomes
  rw [runFrames_cons]

/-- Unfolding equation for the fully-processed pair list on a non-empty
frame list. -/
lemma fpPairs_cons (md5 : String → String) (pf : Bool) (s : PrefilterState)
    (f : FrameData) (rest : List FrameData) :
    fpPairs md5 pf s (f :: rest) =
      (if isFingerprinted (processFrame md5 pf s f).2 then
        [(toHex16 f.phash_val, f.timestamp)] else []) ++
        fpPairs md5 pf (processFrame md5 pf s f).1 rest := by
  unfold fpPairs
  rw [runOutcomes_cons]
  rw [List.zip_cons_cons, List.filter_cons]
  by_cases hf : isFingerprinted (processFrame md5 pf s f).2 <;> simp [hf]

/-- The pair list of an empty run is empty. -/
lemma fpPairs_nil (md5 : String → String) (pf : Bool) (s : PrefilterState) :
    fpPairs md5 pf s [] = [] := rfl

/-- Generalized loop invariant for C3: starting from a window holding the
last `max_recent_hashes` of some prior pair list, frame `i` of the
remaining frames is skipped exactly when some entry of the last
`max_recent_hashes` pairs of prior plus the fully processed frames before
`i` matches its hash within 5 seconds. -/
lemma runFrames_skip_iff_aux (md5 : String → String) :
    ∀ (frames : List FrameData) (s : PrefilterState) (prior : List (String × ℚ)),
      s.recent_hashes = lastN max_recent_hashes prior →
      (∀ f ∈ frames, f.phash_ok = true) →
      (∀ f ∈ frames, f.fileExists = true) →
      ∀ (i : ℕ) (f : FrameData), frames.get? i = some f →
        ((runOutcomes md5 true s frames).get? i = some .skipped ↔
          ∃ p ∈ lastN max_recent_hashes (prior ++ fpPairs md5 true s (frames.take i)),
            _hamming_distance (toHex16 f.phash_val) p.1 ≤ hash_similarity_threshold ∧
            |f.timestamp - p.2| < 5) := by
  intro frames
  induction frames with
  | nil => intro s prior _ _ _ i f hf; simp at hf
  | cons f0 rest ih =>
    intro s prior hrec hok hex i f hf
    have hp0 : f0.phash_ok = true := hok f0 (List.mem_cons_self f0 rest)
    have he0 : f0.fileExists = true := hex f0 (List.mem_cons_self f0 rest)
    have hok' : ∀ g ∈ rest, g.phash_ok = true :=
      fun g hg => hok g (List.mem_cons_of_mem f0 hg)
    have hex' : ∀ g ∈ rest, g.fileExists = true :=
      fun g hg => hex g (List.mem_cons_of_mem f0 hg)
    rcases processFrame_spec md5 s f0 hp0 he0 with ⟨ha, hpf⟩ | ⟨ha, fp, fps', hpf⟩
    · cases i with
      | zero =>
        have hff : f0 = f := by simpa using hf
        subst hff
        rw [runOutcomes_cons, hpf]
        simp only [List.take_zero, List.get?_cons_zero]
        constructor
        · intro _
          rw [List.any_eq_true] at ha
          obtain ⟨p, hpmem, hm⟩ := ha
          rw [hrec] at hpmem
          exact ⟨p, by simpa [fpPairs_nil] using hpmem,
            by simpa [prefilterMatch, Bool.and_eq_true, decide_eq_true_eq] using hm⟩
        · exact fun _ => trivial
      | succ j =>
        rw [runOutcomes_cons, hpf]
        simp only [List.get?_cons_succ]
        have hf' : rest.get? j = some f := by simpa using hf
        have hiter := ih s prior hrec hok' hex' j f hf'
        rw [List.take_succ_cons, fpPairs_cons, hpf]
        simpa using hiter
    · cases i with
      | zero =>
        have hff : f0 = f := by simpa using hf
        subst hff
        rw [runOutcomes_cons, hpf]
        simp only [List.take_zero, List.get?_cons_zero]
        constructor
        · intro h
          exact absurd h (by simp)
        · rintro ⟨p, hpmem, h1, h2⟩
          exfalso
          have hpm : p ∈ s.recent_hashes := by
            rw [hrec]
            simpa [fpPairs_nil] using hpmem
          have hany : s.recent_hashes.any
              (prefilterMatch (toHex16 f0.phash_val) f0.timestamp) = true :=
            List.any_eq_true.mpr
              ⟨p, hpm, by
                simp only [prefilterMatch, Bool.and_eq_true, decide_eq_true_eq]
                exact ⟨h1, h2⟩⟩
          rw [ha] at hany
          exact Bool.noConfusion hany
      | succ j =>
        rw [runOutcomes_cons, hpf]
        simp only [List.get?_cons_succ]
        have hf' : rest.get? j = some f := by simpa using hf
        have hrec' : (⟨fps', trimWindow
            (s.recent_hashes ++ [(toHex16 f0.phash_val, f0.timestamp)])⟩ :
              PrefilterState).recent_hashes =
            lastN max_recent_hashes (prior ++ [(toHex16 f0.phash_val, f0.timestamp)]) := by
          show trimWindow (s.recent_hashes ++ [(toHex16 f0.phash_val, f0.timestamp)]) = _
          rw [hrec, trimWindow_lastN]
        have hiter := ih _ (prior ++ [(toHex16 f0.phash_val, f0.timestamp)]) hrec' hok' hex' j f hf'
        rw [List.take_succ_cons, fpPairs_cons, hpf]
        simpa [List.append_assoc] using hiter

/-- C3: with the pre-filter enabled, and provided every frame's file
exists and its perceptual hash computes (in the source the hash can only
be computed from an existing file), a frame of `fingerprint_frames` is
skipped (producing no fingerprint) if and only if some entry of the FIFO
window holding the last 10 (hash, timestamp) pairs of fully processed
frames has Hamming distance at most 4 from the frame's perceptual hash and
a timestamp strictly within 5 seconds of the frame's timestamp. -/
theorem prefilter_skip_iff (md5 : String → String) (st : FpState)
    (frames : List FrameData)
    (hok : ∀ f ∈ frames, f.phash_ok = true)
    (hex : ∀ f ∈ frames, f.fileExists = true)
    (i : ℕ) (f : FrameData) (hf : frames.get? i = some f) :
    ((runOutcomes md5 true ⟨st, []⟩ frames).get? i = some .skipped ↔
      ∃ p ∈ windowAt md5 st frames i,
        _hamming_distance (toHex16 f.phash_val) p.1 ≤ hash_similarity_threshold ∧
        |f.timestamp - p.2| < 5) := by
  have h := runFrames_skip_iff_aux md5 frames ⟨st, []⟩ [] (by simp [lastN]) hok hex i f hf
  simpa [windowAt] using h

/-- Witness for C3, matching the spec's worked example: the second frame
(hash 2 hex digits away, 1 s later) is skipped; the third frame (identical
hash, 10 s after the first processed frame) is not skipped. -/
theorem prefilter_skip_iff_witness :
    (runOutcomes md5Demo true ⟨stDemo, []⟩ [frDemo1, frDemo2, frDemo3]).get? 1 =
        some .skipped ∧
      ¬((runOutcomes md5Demo true ⟨stDemo, []⟩ [frDemo1, frDemo2, frDemo3]).get? 2 =
        some .skipped) := by
  constructor
  · exact (prefilter_skip_iff md5Demo stDemo [frDemo1, frDemo2, frDemo3]
      (by decide) (by decide) 1 frDemo2 (by decide)).mpr (by decide)
  · intro h
    exact absurd ((prefilter_skip_iff md5Demo stDemo [frDemo1, frDemo2, frDemo3]
      (by decide) (by decide) 2 frDemo3 (by decide)).mp h) (by decide)

end MeetingSummary
